import Mathlib

/-!
Verification of the Timed Media Composition Engine of the
youtube-automation-backend repository, shallowly embedded from
`services/simple_video_service.py` (class `SimpleVideoService`).

Durations are modelled as rationals (the Python code computes with floats;
the arithmetic identities checked here are exact, so the idealisation to ℚ
is the standard one).  Strings are modelled on their character lists so that
all operations are structural recursions the kernel can evaluate.
-/

namespace SimpleVideo

/-- Python `str.lower()`: lower-case every character. -/
def lowerStr (s : String) : String := ⟨s.data.map Char.toLower⟩

/-- Python `str.upper()`: upper-case every character. -/
def upperStr (s : String) : String := ⟨s.data.map Char.toUpper⟩

/-- Whether `sub` occurs at the start of `l` (character-list level). -/
def leadsWith : List Char → List Char → Bool
  | [], _ => true
  | _ :: _, [] => false
  | a :: as, b :: bs => a == b && leadsWith as bs

/-- Python's substring test `sub in l` (character-list level). -/
def containsSub (sub : List Char) : List Char → Bool
  | [] => sub.isEmpty
  | c :: rest => leadsWith sub (c :: rest) || containsSub sub rest

/-- Python `str.split()` (no argument): split on whitespace runs, dropping
empty pieces.  Accumulates the current word reversed. -/
def wordsAux (cur : List Char) : List Char → List String
  | [] => if cur.isEmpty then [] else [⟨cur.reverse⟩]
  | c :: rest =>
    if c.isWhitespace then
      if cur.isEmpty then wordsAux [] rest else ⟨cur.reverse⟩ :: wordsAux [] rest
    else wordsAux (c :: cur) rest

/-- Python `s.split()`. -/
def splitWords (s : String) : List String := wordsAux [] s.data

/-- Python `' '.join(ws)`. -/
def joinSp : List String → String
  | [] => ""
  | [w] => w
  | w :: ws => w ++ " " ++ joinSp ws

/-- Python `w.strip(chars)`: remove the given characters from both ends. -/
def stripChars (chars : List Char) (w : String) : String :=
  ⟨((w.data.dropWhile chars.contains).reverse.dropWhile chars.contains).reverse⟩

/-- Python `s.strip()` with no argument: trim whitespace from both ends. -/
def trimStr (s : String) : String :=
  ⟨((s.data.dropWhile Char.isWhitespace).reverse.dropWhile Char.isWhitespace).reverse⟩

/-- Python `int(x)` on a float/rational: truncation toward zero. -/
def pyInt (x : ℚ) : ℤ := if 0 ≤ x then ⌊x⌋ else -⌊-x⌋

theorem pyInt_of_nonneg {x : ℚ} (h : 0 ≤ x) : pyInt x = ⌊x⌋ := if_pos h

/-! ## Duration Allocator
`create_video_with_ffmpeg`, lines 74–87 of `simple_video_service.py`. -/

/-- `max_duration_per_image = 4.0` (line 75): never exceed 4 seconds per image. -/
def maxDurationPerImage : ℚ := 4

/-- The per-slot outcome of the duration allocator: the (possibly cyclically
extended) list of image slots and the single per-image display duration the
code computes (`duration_per_image`). -/
structure AllocResult (α : Type) where
  slots : List α
  durationPerImage : ℚ
deriving DecidableEq

/-- `(image_paths * ((images_needed // len(image_paths)) + 1))[:images_needed]`
(line 82): cyclic extension of a list to `needed` slots. -/
def cyclicExtend (l : List α) (needed : ℕ) : List α :=
  ((List.replicate (needed / l.length + 1) l).flatten).take needed

/-- Lines 74–84 of `create_video_with_ffmpeg`: per-image duration is
`min(audio_duration / len(images), 4.0)`; if `audio_duration / len(images)`
exceeds the cap, the image list is cyclically extended to
`int(audio_duration / 4.0) + 1` slots and the duration recomputed as
`audio_duration / slot_count`. -/
def allocate (images : List α) (audioDuration : ℚ) : AllocResult α :=
  let dpi := min (audioDuration / images.length) maxDurationPerImage
  if audioDuration / images.length > maxDurationPerImage then
    let imagesNeeded := (pyInt (audioDuration / maxDurationPerImage)).toNat + 1
    let ext := cyclicExtend images imagesNeeded
    ⟨ext, audioDuration / ext.length⟩
  else
    ⟨images, dpi⟩

/-- The list of per-slot durations of an allocation: the code applies the one
computed `duration_per_image` to every slot. -/
def clipDurations (r : AllocResult α) : List ℚ :=
  r.slots.map fun _ => r.durationPerImage

theorem sum_map_const (l : List α) (c : ℚ) :
    (l.map fun _ => c).sum = l.length * c := by
  induction l with
  | nil => simp
  | cons a l ih => simp [ih]; ring

theorem flatten_replicate_length (k : ℕ) (l : List α) :
    ((List.replicate k l).flatten).length = k * l.length := by
  induction k with
  | zero => simp
  | succ k ih => simp [List.replicate_succ, ih, Nat.succ_mul]; ring

theorem flatten_replicate_getElem (k : ℕ) (l : List α) (i : ℕ)
    (h : i < k * l.length) :
    ((List.replicate k l).flatten)[i]? = l[i % l.length]? := by
  induction k generalizing i with
  | zero => simp at h
  | succ k ih =>
    rw [List.replicate_succ, List.flatten_cons]
    by_cases hi : i < l.length
    · rw [List.getElem?_append_left hi, Nat.mod_eq_of_lt hi]
    · push_neg at hi
      have hsm : (k + 1) * l.length = k * l.length + l.length :=
        Nat.succ_mul k l.length
      have h' : i - l.length < k * l.length := by
        rw [hsm] at h
        exact Nat.sub_lt_right_of_lt_add hi h
      rw [List.getElem?_append_right hi, ih (i - l.length) h',
        Nat.mod_eq_sub_mod hi]

theorem lt_div_succ_mul {n : ℕ} (needed : ℕ) (hlen : 0 < n) :
    needed < (needed / n + 1) * n := by
  calc needed = n * (needed / n) + needed % n := (Nat.div_add_mod needed n).symm
    _ < n * (needed / n) + n := Nat.add_lt_add_left (Nat.mod_lt needed hlen) _
    _ = (needed / n + 1) * n := by ring

theorem cyclicExtend_length {l : List α} (hne : l ≠ []) (needed : ℕ) :
    (cyclicExtend l needed).length = needed := by
  have hlen : 0 < l.length := List.length_pos.mpr hne
  rw [cyclicExtend, List.length_take, flatten_replicate_length]
  exact Nat.min_eq_left (lt_div_succ_mul needed hlen).le

theorem cyclicExtend_getElem {l : List α} (hne : l ≠ []) (needed i : ℕ)
    (hi : i < needed) :
    (cyclicExtend l needed)[i]? = l[i % l.length]? := by
  have hlen : 0 < l.length := List.length_pos.mpr hne
  rw [cyclicExtend, List.getElem?_take_of_lt hi, flatten_replicate_getElem]
  exact lt_of_lt_of_le hi (lt_div_succ_mul needed hlen).le

theorem allocate_of_over {α : Type} (images : List α) (D : ℚ)
    (hc : D / images.length > maxDurationPerImage) :
    allocate images D =
      ⟨cyclicExtend images ((pyInt (D / maxDurationPerImage)).toNat + 1),
       D / (cyclicExtend images ((pyInt (D / maxDurationPerImage)).toNat + 1)).length⟩ := by
  unfold allocate
  rw [if_pos hc]

theorem allocate_of_fit {α : Type} (images : List α) (D : ℚ)
    (hc : ¬ D / images.length > maxDurationPerImage) :
    allocate images D = ⟨images, min (D / images.length) maxDurationPerImage⟩ := by
  unfold allocate
  rw [if_neg hc]

theorem needed_cast_gt {D : ℚ} (hD : 0 < D) :
    D / maxDurationPerImage < (((pyInt (D / maxDurationPerImage)).toNat + 1 : ℕ) : ℚ) := by
  have hx : (0:ℚ) ≤ D / maxDurationPerImage := by
    have : (0:ℚ) < maxDurationPerImage := by norm_num [maxDurationPerImage]
    positivity
  rw [pyInt_of_nonneg hx]
  have hfl : (0:ℤ) ≤ ⌊D / maxDurationPerImage⌋ := Int.floor_nonneg.mpr hx
  have hcast : ((⌊D / maxDurationPerImage⌋.toNat : ℕ) : ℚ) =
      ((⌊D / maxDurationPerImage⌋ : ℤ) : ℚ) := by
    exact_mod_cast Int.toNat_of_nonneg hfl
  rw [Nat.cast_add, Nat.cast_one, hcast]
  exact Int.lt_floor_add_one (D / maxDurationPerImage)

theorem ceil_of_not_int {x : ℚ} (h : ¬ ∃ k : ℤ, x = k) : ⌈x⌉ = ⌊x⌋ + 1 := by
  rw [Int.ceil_eq_iff]
  have hle := Int.floor_le x
  have hne : ((⌊x⌋ : ℚ)) ≠ x := fun he => h ⟨⌊x⌋, he.symm⟩
  push_cast
  exact ⟨by simpa using lt_of_le_of_ne hle hne, (Int.lt_floor_add_one x).le⟩

/-- C1: for a non-empty image list and target duration `D > 0` with cap 4 s,
the allocator's per-slot durations sum to exactly `D` (hence within one frame
duration) and no slot's duration exceeds the cap. -/
theorem allocator_sum_eq_duration_and_capped (images : List String) (D : ℚ)
    (hne : images ≠ []) (hD : 0 < D) :
    (clipDurations (allocate images D)).sum = D ∧
    ∀ d ∈ clipDurations (allocate images D), d ≤ maxDurationPerImage := by
  have hN : (0:ℚ) < images.length := by
    exact_mod_cast List.length_pos.mpr hne
  by_cases hc : D / images.length > maxDurationPerImage
  · rw [allocate_of_over images D hc]
    set needed : ℕ := (pyInt (D / maxDurationPerImage)).toNat + 1 with hneed
    have hlen : (cyclicExtend images needed).length = needed :=
      cyclicExtend_length hne needed
    have hpos : (0:ℚ) < (needed:ℚ) := by
      exact_mod_cast Nat.succ_pos (pyInt (D / maxDurationPerImage)).toNat
    have hcap : D / (needed:ℚ) ≤ maxDurationPerImage := by
      have h4 : (0:ℚ) < maxDurationPerImage := by norm_num [maxDurationPerImage]
      have hgt : D / maxDurationPerImage < (needed:ℚ) := needed_cast_gt hD
      rw [div_le_iff₀ hpos]
      rw [div_lt_iff₀ h4] at hgt
      linarith
    constructor
    · dsimp only [clipDurations]
      rw [sum_map_const, hlen, mul_comm]
      exact div_mul_cancel₀ D (ne_of_gt hpos)
    · intro d hd
      dsimp only [clipDurations] at hd
      rcases List.mem_map.mp hd with ⟨a, _, rfl⟩
      rw [hlen]
      exact hcap
  · rw [allocate_of_fit images D hc]
    push_neg at hc
    constructor
    · dsimp only [clipDurations]
      rw [sum_map_const, min_eq_left hc, mul_comm]
      exact div_mul_cancel₀ D (ne_of_gt hN)
    · intro d hd
      dsimp only [clipDurations] at hd
      rcases List.mem_map.mp hd with ⟨a, _, rfl⟩
      exact min_le_right _ _

theorem allocator_sum_eq_duration_and_capped_witness :
    ((["img1"] : List String) ≠ [] ∧ (0:ℚ) < 2) ∧
    ((clipDurations (allocate (["img1"] : List String) 2)).sum = 2 ∧
     ∀ d ∈ clipDurations (allocate (["img1"] : List String) 2),
       d ≤ maxDurationPerImage) :=
  ⟨⟨by decide, by norm_num⟩,
   allocator_sum_eq_duration_and_capped ["img1"] 2 (by decide) (by norm_num)⟩

/-- C2 counterexample: with 2 images, `D = 12` and `C = 4`, the overflow
branch is taken (`12 / 2 > 4`) but the code produces `int(12 / 4) + 1 = 4`
slots, while `ceil(12 / 4) = 3`: the slot count claimed by the spec is wrong
whenever `C` divides `D` exactly. -/
theorem allocator_slot_count_counterexample :
    (12:ℚ) / ((["a", "b"] : List String).length) > maxDurationPerImage ∧
    (allocate (["a", "b"] : List String) 12).slots.length = 4 ∧
    ⌈(12:ℚ) / maxDurationPerImage⌉ = 3 := by
  have hc : (12:ℚ) / ((["a", "b"] : List String).length) > maxDurationPerImage := by
    norm_num [maxDurationPerImage]
  refine ⟨hc, ?_, ?_⟩
  · rw [allocate_of_over _ _ hc]
    have h3 : (12:ℚ) / maxDurationPerImage = 3 := by norm_num [maxDurationPerImage]
    have hpy : pyInt ((12:ℚ) / maxDurationPerImage) = 3 := by
      rw [h3, pyInt_of_nonneg (by norm_num)]
      norm_num
    simp only [hpy]
    exact cyclicExtend_length (by decide) 4
  · rw [show (12:ℚ) / maxDurationPerImage = ((3:ℤ):ℚ) by norm_num [maxDurationPerImage]]
    exact Int.ceil_intCast 3

/-- C2 amended: in the overflow case (`D / N > C`) the allocator produces
`int(D / C) + 1 = ⌊D / C⌋ + 1` slots — which equals `⌈D / C⌉` exactly when
`C` does not divide `D` — and the extended list reuses images cyclically:
slot `i` holds image `i mod N`. -/
theorem allocator_overflow_slots (images : List String) (D : ℚ)
    (hne : images ≠ []) (hD : 0 < D)
    (hover : D / images.length > maxDurationPerImage) :
    (allocate images D).slots.length = (⌊D / maxDurationPerImage⌋).toNat + 1 ∧
    (∀ i < (allocate images D).slots.length,
      (allocate images D).slots[i]? = images[i % images.length]?) ∧
    ((¬ ∃ k : ℤ, D / maxDurationPerImage = k) →
      ((allocate images D).slots.length : ℤ) = ⌈D / maxDurationPerImage⌉) := by
  have hx : (0:ℚ) ≤ D / maxDurationPerImage := by
    have : (0:ℚ) < maxDurationPerImage := by norm_num [maxDurationPerImage]
    positivity
  have hpy : pyInt (D / maxDurationPerImage) = ⌊D / maxDurationPerImage⌋ :=
    pyInt_of_nonneg hx
  have hfl : (0:ℤ) ≤ ⌊D / maxDurationPerImage⌋ := Int.floor_nonneg.mpr hx
  rw [allocate_of_over images D hover]
  simp only [hpy]
  set needed : ℕ := (⌊D / maxDurationPerImage⌋).toNat + 1 with hneed
  have hlen : (cyclicExtend images needed).length = needed :=
    cyclicExtend_length hne needed
  refine ⟨hlen, ?_, ?_⟩
  · intro i hi
    rw [hlen] at hi
    exact cyclicExtend_getElem hne needed i hi
  · intro hnotint
    rw [hlen, ceil_of_not_int hnotint, hneed]
    push_cast [Int.toNat_of_nonneg hfl]
    ring

theorem allocator_overflow_slots_witness :
    ((["a", "b"] : List String) ≠ [] ∧ (0:ℚ) < 10 ∧
      (10:ℚ) / ((["a", "b"] : List String).length) > maxDurationPerImage) ∧
    ((allocate (["a", "b"] : List String) 10).slots.length =
       (⌊(10:ℚ) / maxDurationPerImage⌋).toNat + 1 ∧
     (∀ i < (allocate (["a", "b"] : List String) 10).slots.length,
       (allocate (["a", "b"] : List String) 10).slots[i]? =
         (["a", "b"] : List String)[i % (["a", "b"] : List String).length]?) ∧
     ((¬ ∃ k : ℤ, (10:ℚ) / maxDurationPerImage = k) →
       (((allocate (["a", "b"] : List String) 10).slots.length : ℤ) =
         ⌈(10:ℚ) / maxDurationPerImage⌉))) :=
  ⟨⟨by decide, by norm_num, by norm_num [maxDurationPerImage]⟩,
   allocator_overflow_slots ["a", "b"] 10 (by decide) (by norm_num)
     (by norm_num [maxDurationPerImage])⟩

/-! ## Caption Synchronizer
`_create_subtitle_content`, lines 287–358 of `simple_video_service.py`. -/

/-- The fixed emphasis keyword list (lines 308–310). -/
def emphasisKeywords : List String :=
  ["INSANE", "SHOCKING", "CRAZY", "MILLION", "BILLION",
   "WAIT", "BREAKING", "EXCLUSIVE", "REVEALED", "SECRET",
   "DRAMA", "SCANDAL", "LAWSUIT", "BEEF", "EXPOSED"]

/-- Lines 312–316: a word is upper-cased when any emphasis keyword occurs
(case-insensitively) inside the word stripped of `.,!?`. -/
def emphasizeWord (w : String) : String :=
  let clean := stripChars ['.', ',', '!', '?'] w
  if emphasisKeywords.any
      (fun kw => containsSub (lowerStr kw).data (lowerStr clean).data) then
    upperStr w
  else w

/-- Lines 303–325: words are flushed into chunks of exactly three, the
remainder (1–2 words) forming a final shorter chunk. -/
def chunk3 : List String → List String
  | [] => []
  | [a] => [joinSp [a]]
  | [a, b] => [joinSp [a, b]]
  | a :: b :: c :: rest => joinSp [a, b, c] :: chunk3 rest

/-- A timed caption cue as emitted into the SRT file: 1-based index, start
and end time in seconds, display text. -/
structure CaptionCue where
  index : ℕ
  start : ℚ
  stop : ℚ
  text : String
deriving DecidableEq

/-- The 0.2 s lead-in offset added to every cue (lines 334–336). -/
def syncOffset : ℚ := 1/5

/-- Lines 333–352, the cue-emission loop: cue `i` spans
`i*dpc + 0.2 … (i+1)*dpc + 0.2`; the loop breaks at the first cue whose
start reaches the audio duration, an overrunning end time is clamped to the
audio duration, and a cue is emitted only when its text is non-blank. -/
def cuesAux (D dpc : ℚ) : ℕ → List String → List CaptionCue
  | _, [] => []
  | i, c :: rest =>
    let start := i * dpc + syncOffset
    let stop0 := (i + 1) * dpc + syncOffset
    if D ≤ start then []
    else
      let stop := if D < stop0 then D else stop0
      if trimStr c = "" then cuesAux D dpc (i + 1) rest
      else ⟨i + 1, start, stop, trimStr c⟩ :: cuesAux D dpc (i + 1) rest

/-- The caption-relevant part of `script_data`: the main script text and the
per-scene narration strings. -/
structure ScriptData where
  script : String
  scenes : List String
deriving DecidableEq

/-- Lines 293–300: use the main script text; fall back to the joined scene
narrations when it is empty.  (When `scenes` is empty the join is the empty
string, giving no words and hence no cues, exactly as the code's early
`return ""`.) -/
def mainScript (sd : ScriptData) : String :=
  if sd.script ≠ "" then sd.script else joinSp sd.scenes

/-- `_create_subtitle_content` modelled at the cue level: the list of timed
cues whose SRT rendering the function returns.  `none` script data or an
empty chunk list yields no cues (the code returns `""`). -/
def createSubtitleCues (sd : Option ScriptData) (D : ℚ) : List CaptionCue :=
  match sd with
  | none => []
  | some s =>
    let words := (splitWords (mainScript s)).map emphasizeWord
    let chunks := chunk3 words
    if chunks = [] then []
    else cuesAux D (D / chunks.length) 0 chunks

theorem cuesAux_mem {D dpc : ℚ} {i : ℕ} {chunks : List String} {c : CaptionCue}
    (hc : c ∈ cuesAux D dpc i chunks) :
    ∃ k, i ≤ k ∧ c.start = k * dpc + syncOffset ∧ c.start < D ∧
      c.stop = if D < (k + 1) * dpc + syncOffset then D
               else (k + 1) * dpc + syncOffset := by
  induction chunks generalizing i with
  | nil => simp [cuesAux] at hc
  | cons w rest ih =>
    rw [cuesAux] at hc
    by_cases hbrk : D ≤ i * dpc + syncOffset
    · rw [if_pos hbrk] at hc
      simp at hc
    · rw [if_neg hbrk] at hc
      by_cases htrim : trimStr w = ""
      · rw [if_pos htrim] at hc
        rcases ih hc with ⟨k, hk, hrest⟩
        exact ⟨k, by omega, hrest⟩
      · rw [if_neg htrim] at hc
        rcases List.mem_cons.mp hc with hc | hc
        · subst hc
          exact ⟨i, le_refl i, rfl, lt_of_not_le hbrk, rfl⟩
        · rcases ih hc with ⟨k, hk, hrest⟩
          exact ⟨k, by omega, hrest⟩

theorem cuesAux_pairwise {D dpc : ℚ} (hdpc : 0 ≤ dpc) (i : ℕ)
    (chunks : List String) :
    List.Pairwise (fun a b : CaptionCue => a.stop ≤ b.start)
      (cuesAux D dpc i chunks) := by
  induction chunks generalizing i with
  | nil => simp [cuesAux]
  | cons w rest ih =>
    rw [cuesAux]
    by_cases hbrk : D ≤ i * dpc + syncOffset
    · rw [if_pos hbrk]
      exact List.Pairwise.nil
    · rw [if_neg hbrk]
      by_cases htrim : trimStr w = ""
      · rw [if_pos htrim]
        exact ih (i + 1)
      · rw [if_neg htrim]
        refine List.pairwise_cons.mpr ⟨?_, ih (i + 1)⟩
        intro b hb
        rcases cuesAux_mem hb with ⟨k, hk, hstart, _, _⟩
        have hstep : ((i:ℚ) + 1) * dpc + syncOffset ≤ k * dpc + syncOffset := by
          have : ((i:ℚ) + 1) ≤ (k:ℚ) := by exact_mod_cast hk
          nlinarith
        rw [hstart]
        by_cases hclamp : D < (i + 1) * dpc + syncOffset
        · simp only [if_pos hclamp]
          calc D ≤ ((i:ℚ) + 1) * dpc + syncOffset := hclamp.le
            _ ≤ _ := hstep
        · simp only [if_neg hclamp]
          exact hstep

theorem cuesAux_nonempty_first {D dpc : ℚ} {chunks : List String}
    (h : cuesAux D dpc 0 chunks ≠ []) : syncOffset < D := by
  cases chunks with
  | nil => simp [cuesAux] at h
  | cons w rest =>
    rw [cuesAux] at h
    by_cases hbrk : D ≤ (0:ℕ) * dpc + syncOffset
    · rw [if_pos hbrk] at h
      exact absurd rfl h
    · push_neg at hbrk
      simpa using hbrk

/-- C4: for every script and audio duration, the generated caption cues are
pairwise non-overlapping in order, every cue's span is non-degenerate
(`start ≤ stop`), every cue starts strictly before the audio duration (a cue
whose start reaches it is discarded), and no cue's end time exceeds the
audio duration (an overrunning end is clamped). -/
theorem caption_cues_invariant (sd : Option ScriptData) (D : ℚ) :
    List.Pairwise (fun a b : CaptionCue => a.stop ≤ b.start)
      (createSubtitleCues sd D) ∧
    ∀ c ∈ createSubtitleCues sd D,
      c.start ≤ c.stop ∧ c.stop ≤ D ∧ c.start < D := by
  match sd with
  | none => simp [createSubtitleCues]
  | some s =>
    rw [createSubtitleCues]
    by_cases hch : chunk3 ((splitWords (mainScript s)).map emphasizeWord) = []
    · rw [if_pos hch]
      simp
    · rw [if_neg hch]
      set chunks := chunk3 ((splitWords (mainScript s)).map emphasizeWord)
        with hchunks
      set dpc := D / (chunks.length : ℚ) with hdpc
      by_cases hnil : cuesAux D dpc 0 chunks = []
      · rw [hnil]
        simp
      · have hoff : syncOffset < D := cuesAux_nonempty_first hnil
        have hDpos : 0 < D := lt_trans (by norm_num [syncOffset]) hoff
        have hdpc0 : 0 ≤ dpc := by
          rw [hdpc]
          positivity
        refine ⟨cuesAux_pairwise hdpc0 0 chunks, ?_⟩
        intro c hc
        rcases cuesAux_mem hc with ⟨k, _, hstart, hlt, hstop⟩
        have hmono : c.start ≤ (k + 1) * dpc + syncOffset := by
          rw [hstart]
          nlinarith
        refine ⟨?_, ?_, hlt⟩
        · rw [hstop]
          by_cases hclamp : D < (k + 1) * dpc + syncOffset
          · rw [if_pos hclamp]
            exact hlt.le
          · rw [if_neg hclamp]
            exact hmono
        · rw [hstop]
          by_cases hclamp : D < (k + 1) * dpc + syncOffset
          · rw [if_pos hclamp]
          · rw [if_neg hclamp]
            exact le_of_not_lt hclamp

/-- The end-to-end scenario's narration, split and chunked: the 7 words of
"word one two three four five six" form three chunks of 3, 3 and 1 words. -/
theorem chunks_concrete :
    chunk3 ((splitWords
        (mainScript ⟨"word one two three four five six", []⟩)).map emphasizeWord) =
      ["word one two", "three four five", "six"] := by
  decide

theorem cuesAux_concrete :
    cuesAux 12 4 0 ["word one two", "three four five", "six"] =
      [⟨1, 1/5, 21/5, "word one two"⟩,
       ⟨2, 21/5, 41/5, "three four five"⟩,
       ⟨3, 41/5, 12, "six"⟩] := by
  have t1 : trimStr "word one two" = "word one two" := by decide
  have t2 : trimStr "three four five" = "three four five" := by decide
  have t3 : trimStr "six" = "six" := by decide
  have n1 : ¬ (("word one two" : String) = "") := by decide
  have n2 : ¬ (("three four five" : String) = "") := by decide
  have n3 : ¬ (("six" : String) = "") := by decide
  norm_num [cuesAux, syncOffset, t1, t2, t3, n1, n2, n3, CaptionCue.mk.injEq]

/-- The cue list of the end-to-end scenario: narration
"word one two three four five six" over 12 s of audio yields three cues. -/
theorem cues_concrete :
    createSubtitleCues (some ⟨"word one two three four five six", []⟩) 12 =
      [⟨1, 1/5, 21/5, "word one two"⟩,
       ⟨2, 21/5, 41/5, "three four five"⟩,
       ⟨3, 41/5, 12, "six"⟩] := by
  rw [createSubtitleCues, chunks_concrete, if_neg (by decide)]
  rw [show (((["word one two", "three four five", "six"] : List String).length : ℚ)) = 3
    from by norm_num]
  rw [show (12:ℚ) / 3 = 4 from by norm_num]
  exact cuesAux_concrete

/-! ## Asset validation, subtitle pass and job orchestration
`create_video_with_ffmpeg` (lines 33–193) and `_add_subtitles_to_video`
(lines 195–260) of `simple_video_service.py`.  External `subprocess.run`
calls are modelled by their outcome; the trace records what the job
reported, which external encodes were started, and what happened to the
job's temp SRT file. -/

/-- Outcome of the `file` signature probe run on one input image: either it
completed with some stdout, or it raised (tool missing, timeout). -/
inductive ProbeResult where
  | ok (stdout : String)
  | raised
deriving DecidableEq

/-- Line 59: the probe's stdout (lower-cased) counts as an image when it
contains `"image data"` or any of the format tokens. -/
def isImageSignature (stdout : String) : Bool :=
  containsSub "image data".data (lowerStr stdout).data ||
  ["jpeg", "jpg", "png", "gif", "webp"].any
    (fun fmt => containsSub fmt.data (lowerStr stdout).data)

/-- Lines 54–65: an asset is kept when its probe completed and looked like
an image, or when the probe itself raised (the `except` branch appends the
image unchecked). -/
def keepAsset : ProbeResult → Bool
  | .ok stdout => isImageSignature stdout
  | .raised => true

/-- Lines 54–65: the `valid_images` list. -/
def validateImages (images : List String) (probe : String → ProbeResult) :
    List String :=
  images.filter fun img => keepAsset (probe img)

/-- Outcome of one external encode invocation: exit 0, non-zero exit, or a
raised exception / timeout. -/
inductive RunOutcome where
  | success
  | failure
  | raised
deriving DecidableEq

/-- Which generation of the output artifact a path holds. -/
inductive VideoArtifact where
  | phase1
  | captioned
deriving DecidableEq

/-- Observable effects of `_add_subtitles_to_video`: the boolean it returns,
how many encode invocations it started, which artifact the output path holds
afterwards, and whether a temp SRT file was created / deleted. -/
structure SubtitlePass where
  ok : Bool
  invocations : ℕ
  artifact : VideoArtifact
  tempSrtCreated : Bool
  tempSrtDeleted : Bool
deriving DecidableEq

/-- `_add_subtitles_to_video` (lines 195–260).  With an externally supplied
SRT no temp file is written; otherwise the cue content is generated and, when
empty, the function returns `True` with no invocation.  On burn-in success
the captioned file replaces the original and the temp SRT is unlinked
(lines 247–253); on non-zero exit or exception the function still returns
`True`, the phase-1 render stays, and the temp SRT is not unlinked
(lines 254–260). -/
def addSubtitlesToVideo (sd : Option ScriptData) (D : ℚ) (externalSrt : Bool)
    (outcome : RunOutcome) : SubtitlePass :=
  if externalSrt then
    match outcome with
    | .success => ⟨true, 1, .captioned, false, false⟩
    | _ => ⟨true, 1, .phase1, false, false⟩
  else if createSubtitleCues sd D = [] then ⟨true, 0, .phase1, false, false⟩
  else
    match outcome with
    | .success => ⟨true, 1, .captioned, true, true⟩
    | _ => ⟨true, 1, .phase1, true, false⟩

/-- Observable effects of one `create_video_with_ffmpeg` job. -/
structure JobTrace where
  result : Bool
  composeInvocations : ℕ
  composeImageInputs : ℕ
  composeAudioInputs : ℕ
  captionInvocations : ℕ
  artifact : Option VideoArtifact
  tempSrtCreated : Bool
  tempSrtDeleted : Bool
deriving DecidableEq

/-- Folds a subtitle pass into the job trace of a successful composition. -/
def mkTraceWithSub (nImgs : ℕ) (sub : SubtitlePass) : JobTrace :=
  ⟨sub.ok, 1, nImgs, 1, sub.invocations, some sub.artifact,
    sub.tempSrtCreated, sub.tempSrtDeleted⟩

/-- Line 179's `script_data and script_data.get('script')`: the estimated
caption pass is attempted only for script data with a non-empty script. -/
def scriptRequested : Option ScriptData → Bool
  | some s => decide (s.script ≠ "")
  | none => false

/-- `create_video_with_ffmpeg` (lines 33–193): empty input or zero valid
images return `False` before any encode starts (lines 50–69); otherwise the
allocator runs, the single composition encode is invoked with the slot
images plus one audio input, a non-zero exit / timeout / exception returns
`False` (lines 184–193), and on success the subtitle pass runs when an
external SRT exists or `script_data['script']` is non-empty
(lines 173–183). -/
def createVideoWithFFmpeg (images : List String) (probe : String → ProbeResult)
    (D : ℚ) (sd : Option ScriptData) (externalSrt : Bool)
    (composeOutcome captionOutcome : RunOutcome) : JobTrace :=
  if images = [] then ⟨false, 0, 0, 0, 0, none, false, false⟩
  else if validateImages images probe = [] then
    ⟨false, 0, 0, 0, 0, none, false, false⟩
  else if composeOutcome = .success then
    if externalSrt then
      mkTraceWithSub (allocate (validateImages images probe) D).slots.length
        (addSubtitlesToVideo sd D true captionOutcome)
    else if scriptRequested sd then
      mkTraceWithSub (allocate (validateImages images probe) D).slots.length
        (addSubtitlesToVideo sd D false captionOutcome)
    else
      ⟨true, 1, (allocate (validateImages images probe) D).slots.length,
        1, 0, some .phase1, false, false⟩
  else
    ⟨false, 1, (allocate (validateImages images probe) D).slots.length,
      1, 0, none, false, false⟩

theorem addSubtitles_ok (sd : Option ScriptData) (D : ℚ) (ext : Bool)
    (o : RunOutcome) : (addSubtitlesToVideo sd D ext o).ok = true := by
  unfold addSubtitlesToVideo
  cases ext <;> cases o <;> simp <;> split <;> rfl

theorem addSubtitles_artifact (sd : Option ScriptData) (D : ℚ) (ext : Bool)
    (o : RunOutcome) (h : o ≠ .success) :
    (addSubtitlesToVideo sd D ext o).artifact = .phase1 := by
  unfold addSubtitlesToVideo
  cases o with
  | success => exact absurd rfl h
  | failure => cases ext <;> simp <;> split <;> rfl
  | raised => cases ext <;> simp <;> split <;> rfl

/-! ## Encoder Profile Selector
`_detect_hardware_encoder` (lines 369–399) and the codec parameter choice
(lines 147–156) of `simple_video_service.py`. -/

/-- `platform.system()` outcomes distinguished by the code. -/
inductive HostPlatform where
  | darwin
  | linux
  | windows
  | other
deriving DecidableEq

/-- Outcome of running `ffmpeg -hide_banner -encoders`: raised (tool missing,
timeout) or completed with some stdout. -/
structure EncoderProbe where
  raised : Bool
  encoders : String
deriving DecidableEq

/-- `_detect_hardware_encoder`: probe the encoder list once; on any raise
return `None`; otherwise pick the platform's hardware encoder when listed,
else `None`. -/
def detectHardwareEncoder (host : HostPlatform) (p : EncoderProbe) :
    Option String :=
  if p.raised then none
  else
    match host with
    | .darwin =>
      if containsSub "h264_videotoolbox".data (lowerStr p.encoders).data then
        some "h264_videotoolbox"
      else none
    | .linux =>
      if containsSub "h264_nvenc".data (lowerStr p.encoders).data then
        some "h264_nvenc"
      else if containsSub "h264_vaapi".data (lowerStr p.encoders).data then
        some "h264_vaapi"
      else none
    | .windows =>
      if containsSub "h264_nvenc".data (lowerStr p.encoders).data then
        some "h264_nvenc"
      else if containsSub "h264_qsv".data (lowerStr p.encoders).data then
        some "h264_qsv"
      else none
    | .other => none

/-- Resolved codec parameters for the composition encode. -/
structure EncoderProfile where
  codec : String
  hardware : Bool
  bitrate : Option String
  crf : Option ℕ
  preset : Option String
deriving DecidableEq

/-- The software fallback of lines 155–156: `libx264` with CRF 26. -/
def softwareProfile : EncoderProfile :=
  ⟨"libx264", false, none, some 26, some "veryfast"⟩

/-- Lines 147–156: every hardware encoder gets a fixed `-b:v 3M` target
bitrate (nvenc additionally a preset); no hardware encoder means the
software profile. -/
def selectEncoderProfile : Option String → EncoderProfile
  | some enc =>
    if containsSub "videotoolbox".data enc.data then
      ⟨enc, true, some "3M", none, none⟩
    else if containsSub "nvenc".data enc.data then
      ⟨enc, true, some "3M", none, some "p4"⟩
    else ⟨enc, true, some "3M", none, none⟩
  | none => softwareProfile

/-! ## Clip Plan Builder
Lines 104–131 of `create_video_with_ffmpeg`. -/

/-- The fixed palette of 7 zoompan motion expressions (lines 104–112). -/
def motionTypes : List String :=
  ["z=\x27min(zoom+0.0015,1.25)\x27",
   "z=\x27if(lte(zoom,1.0),1.3,max(1.0,zoom-0.002))\x27",
   "z=\x27min(zoom+0.002,1.35)\x27",
   "z=\x27min(zoom+0.0012,1.2)\x27",
   "z=\x27if(lte(zoom,1.0),1.25,max(1.0,zoom-0.0015))\x27",
   "z=\x27min(zoom+0.0018,1.3)\x27",
   "z=\x27min(zoom+0.001,1.15)\x27"]

/-- Line 119: `frames = int(duration_per_image * 30)` — the zoompan `d`
parameter, the clip's frame count at 30 fps. -/
def frameCount (d : ℚ) : ℕ := (pyInt (d * 30)).toNat

/-- One per-image composition subgraph: the input-stream index, the selected
motion expression and the zoompan frame count. -/
structure ClipSpec where
  index : ℕ
  motion : String
  frames : ℕ
deriving DecidableEq

/-- Lines 114–131: for each slot index `i`, motion
`motion_types[i % len(motion_types)]` and frame count
`int(duration_per_image * 30)`. -/
def buildClipPlan (n : ℕ) (dpi : ℚ) : List ClipSpec :=
  (List.range n).map fun i =>
    ⟨i, motionTypes.getD (i % motionTypes.length) "", frameCount dpi⟩

theorem addSubtitles_failure_concrete :
    addSubtitlesToVideo (some ⟨"word one two three four five six", []⟩) 12
      false .failure = ⟨true, 1, .phase1, true, false⟩ := by
  simp [addSubtitlesToVideo, cues_concrete]

theorem addSubtitles_success_concrete :
    addSubtitlesToVideo (some ⟨"word one two three four five six", []⟩) 12
      false .success = ⟨true, 1, .captioned, true, true⟩ := by
  simp [addSubtitlesToVideo, cues_concrete]

/-- C5: a job whose image list is empty, or has zero valid images after
signature validation, returns `False` with no encode invocation, no caption
invocation and no output artifact. -/
theorem no_usable_assets_fatal (images : List String)
    (probe : String → ProbeResult) (D : ℚ) (sd : Option ScriptData)
    (ext : Bool) (co capo : RunOutcome)
    (hvalid : validateImages images probe = []) :
    createVideoWithFFmpeg images probe D sd ext co capo =
      ⟨false, 0, 0, 0, 0, none, false, false⟩ := by
  unfold createVideoWithFFmpeg
  by_cases himg : images = []
  · rw [if_pos himg]
  · rw [if_neg himg, if_pos hvalid]

theorem no_usable_assets_fatal_witness :
    validateImages ["notes.txt"] (fun _ => ProbeResult.ok "ascii text") = [] ∧
    createVideoWithFFmpeg ["notes.txt"] (fun _ => ProbeResult.ok "ascii text")
        30 none false .success .success =
      ⟨false, 0, 0, 0, 0, none, false, false⟩ :=
  ⟨by decide,
   no_usable_assets_fatal ["notes.txt"] (fun _ => ProbeResult.ok "ascii text")
     30 none false .success .success (by decide)⟩

/-- C10: an image whose signature probe raises is kept in the plan as if
valid; only a probe that completes with a non-image signature drops it. -/
theorem probe_exception_keeps_image (images : List String)
    (probe : String → ProbeResult) (img : String) (hmem : img ∈ images) :
    (probe img = .raised → img ∈ validateImages images probe) ∧
    ∀ s, probe img = .ok s → isImageSignature s = false →
      img ∉ validateImages images probe := by
  constructor
  · intro hp
    refine List.mem_filter.mpr ⟨hmem, ?_⟩
    rw [hp]
    rfl
  · intro s hp hsig hcontra
    have hkeep := (List.mem_filter.mp hcontra).2
    rw [hp] at hkeep
    rw [keepAsset, hsig] at hkeep
    exact Bool.false_ne_true hkeep

theorem probe_exception_keeps_image_witness :
    ("broken.img" ∈ (["broken.img", "doc.txt"] : List String)) ∧
    (((fun x => if x = "broken.img" then ProbeResult.raised
        else ProbeResult.ok "ascii text") "broken.img" = ProbeResult.raised →
      "broken.img" ∈ validateImages ["broken.img", "doc.txt"]
        (fun x => if x = "broken.img" then ProbeResult.raised
          else ProbeResult.ok "ascii text")) ∧
     ∀ s, (fun x => if x = "broken.img" then ProbeResult.raised
        else ProbeResult.ok "ascii text") "broken.img" = ProbeResult.ok s →
       isImageSignature s = false →
       "broken.img" ∉ validateImages ["broken.img", "doc.txt"]
         (fun x => if x = "broken.img" then ProbeResult.raised
           else ProbeResult.ok "ascii text")) :=
  ⟨by decide,
   probe_exception_keeps_image ["broken.img", "doc.txt"]
     (fun x => if x = "broken.img" then ProbeResult.raised
       else ProbeResult.ok "ascii text") "broken.img" (by decide)⟩

/-- C3 amended: whenever the caption burn-in pass does not succeed (non-zero
exit or exception) the job still returns `True` and the phase-1 uncaptioned
render is the final artifact; but the reported value is the same plain
boolean success as a fully captioned run — the code reports no
partial-success flag. -/
theorem caption_failure_keeps_phase1 (images : List String)
    (probe : String → ProbeResult) (D : ℚ) (sd : Option ScriptData)
    (externalSrt : Bool) (capOut : RunOutcome)
    (hvalid : validateImages images probe ≠ []) (hcap : capOut ≠ .success) :
    (createVideoWithFFmpeg images probe D sd externalSrt .success
      capOut).result = true ∧
    (createVideoWithFFmpeg images probe D sd externalSrt .success
      capOut).artifact = some .phase1 := by
  have himg : images ≠ [] := by
    intro h
    apply hvalid
    rw [h]
    rfl
  unfold createVideoWithFFmpeg
  rw [if_neg himg, if_neg hvalid, if_pos rfl]
  cases externalSrt with
  | true =>
    rw [if_pos rfl]
    constructor
    · exact addSubtitles_ok sd D true capOut
    · simp only [mkTraceWithSub]
      rw [addSubtitles_artifact sd D true capOut hcap]
  | false =>
    rw [if_neg Bool.false_ne_true]
    by_cases hreq : scriptRequested sd = true
    · rw [if_pos hreq]
      constructor
      · exact addSubtitles_ok sd D false capOut
      · simp only [mkTraceWithSub]
        rw [addSubtitles_artifact sd D false capOut hcap]
    · rw [if_neg hreq]
      exact ⟨rfl, rfl⟩

theorem caption_failure_keeps_phase1_witness :
    (validateImages ["a.jpg"] (fun _ => ProbeResult.ok "jpeg image data") ≠ [] ∧
     RunOutcome.failure ≠ RunOutcome.success) ∧
    ((createVideoWithFFmpeg ["a.jpg"] (fun _ => ProbeResult.ok "jpeg image data")
        12 (some ⟨"word one two three four five six", []⟩) false .success
        .failure).result = true ∧
     (createVideoWithFFmpeg ["a.jpg"] (fun _ => ProbeResult.ok "jpeg image data")
        12 (some ⟨"word one two three four five six", []⟩) false .success
        .failure).artifact = some .phase1) :=
  ⟨⟨by decide, by decide⟩,
   caption_failure_keeps_phase1 ["a.jpg"]
     (fun _ => ProbeResult.ok "jpeg image data") 12
     (some ⟨"word one two three four five six", []⟩) false .failure
     (by decide) (by decide)⟩

/-- C3 counterexample (the partial-success flag): the value the job reports
after a failed caption burn-in is the very same plain `True` it reports
after a successful one — the `bool` return type of
`create_video_with_ffmpeg` carries no flag indicating captions were not
applied. -/
theorem caption_failure_flag_counterexample :
    (createVideoWithFFmpeg ["a.jpg"] (fun _ => ProbeResult.ok "jpeg image data")
      12 (some ⟨"word one two three four five six", []⟩) false .success
      .failure).result =
    (createVideoWithFFmpeg ["a.jpg"] (fun _ => ProbeResult.ok "jpeg image data")
      12 (some ⟨"word one two three four five six", []⟩) false .success
      .success).result ∧
    (createVideoWithFFmpeg ["a.jpg"] (fun _ => ProbeResult.ok "jpeg image data")
      12 (some ⟨"word one two three four five six", []⟩) false .success
      .failure).result = true := by
  have hv : validateImages ["a.jpg"] (fun _ => ProbeResult.ok "jpeg image data")
      ≠ [] := by decide
  have e : ∀ o, (createVideoWithFFmpeg ["a.jpg"]
      (fun _ => ProbeResult.ok "jpeg image data") 12
      (some ⟨"word one two three four five six", []⟩) false .success o).result
      = true := by
    intro o
    unfold createVideoWithFFmpeg
    rw [if_neg (by decide : ¬ ((["a.jpg"] : List String) = [])), if_neg hv,
      if_pos rfl, if_neg Bool.false_ne_true,
      if_pos (by decide :
        scriptRequested (some ⟨"word one two three four five six", []⟩) = true)]
    exact addSubtitles_ok (some ⟨"word one two three four five six", []⟩)
      12 false o
  exact ⟨(e .failure).trans (e .success).symm, e .failure⟩

/-- C9 counterexample: in a job whose caption burn-in encode exits non-zero,
`_add_subtitles_to_video` returns `True` (the job succeeds) but the temp SRT
file it wrote is never unlinked — the early `return True` on the failure
path skips the cleanup that the success path performs. -/
theorem temp_srt_leak_counterexample :
    (addSubtitlesToVideo (some ⟨"word one two three four five six", []⟩) 12
      false .failure).ok = true ∧
    (addSubtitlesToVideo (some ⟨"word one two three four five six", []⟩) 12
      false .failure).tempSrtCreated = true ∧
    (addSubtitlesToVideo (some ⟨"word one two three four five six", []⟩) 12
      false .failure).tempSrtDeleted = false := by
  rw [addSubtitles_failure_concrete]
  exact ⟨rfl, rfl, rfl⟩

/-! `create_video_slideshow_method` of `enhanced_ffmpeg_service.py`
(lines 24–168): the temp-file lifecycle of the per-clip-then-concat path.
Temp files tracked by the code: the per-clip videos appended to
`processed_clips` (lines 56–109; a clip is tracked only when its encode
exited 0 and the file exists), the concat `input_list` written at
lines 116–118, and the intermediate `temp_video` produced by a successful
concat (a failed concat invocation produces no tracked output).  Cleanup:
on concat non-zero exit, `_cleanup_files(processed_clips + [input_list])`
(line 137); after the final-assembly run returns, unconditionally
`_cleanup_files(processed_clips + [input_list, temp_video])` (line 157) on
both its success and failure results; a raised subprocess (timeout) jumps
to the `except` at lines 166–168, which performs no cleanup. -/

/-- How many temp files of each kind `create_video_slideshow_method`
created and deleted, plus the success flag it reports. -/
structure SlideshowTrace where
  result : Bool
  clipFilesCreated : ℕ
  clipFilesDeleted : ℕ
  inputListCreated : Bool
  inputListDeleted : Bool
  tempVideoCreated : Bool
  tempVideoDeleted : Bool
deriving DecidableEq

/-- `create_video_slideshow_method`, modelled over the per-clip encode
results (`true` = clip file created and tracked) and the concat and
final-assembly outcomes. -/
def createVideoSlideshowMethod (clipCreated : List Bool)
    (concatOutcome finalOutcome : RunOutcome) : SlideshowTrace :=
  if (clipCreated.filter id).length = 0 then
    ⟨false, 0, 0, false, false, false, false⟩
  else
    match concatOutcome with
    | .failure =>
      ⟨false, (clipCreated.filter id).length, (clipCreated.filter id).length,
        true, true, false, false⟩
    | .raised =>
      ⟨false, (clipCreated.filter id).length, 0, true, false, false, false⟩
    | .success =>
      match finalOutcome with
      | .raised =>
        ⟨false, (clipCreated.filter id).length, 0, true, false, true, false⟩
      | .success =>
        ⟨true, (clipCreated.filter id).length, (clipCreated.filter id).length,
          true, true, true, true⟩
      | .failure =>
        ⟨false, (clipCreated.filter id).length, (clipCreated.filter id).length,
          true, true, true, true⟩

/-- C9 amended: the temp SRT file written by the caption pass is deleted
precisely when the burn-in encode succeeds — on the failure and exception
paths of `_add_subtitles_to_video` it is leaked; and the enhanced slideshow
service deletes every temp file it created (per-clip videos, the concat
input list, the intermediate concat video) on its success path and on its
non-zero-exit failure paths, i.e. on every path on which no subprocess
raised. -/
theorem temp_cleanup_paths (sd : Option ScriptData) (D : ℚ) (ext : Bool)
    (o : RunOutcome) (clips : List Bool) (co fo : RunOutcome)
    (hcreated : (addSubtitlesToVideo sd D ext o).tempSrtCreated = true) :
    ((addSubtitlesToVideo sd D ext o).tempSrtDeleted = true ↔ o = .success) ∧
    (co ≠ .raised → fo ≠ .raised →
      (createVideoSlideshowMethod clips co fo).clipFilesDeleted =
        (createVideoSlideshowMethod clips co fo).clipFilesCreated ∧
      ((createVideoSlideshowMethod clips co fo).inputListCreated = true →
        (createVideoSlideshowMethod clips co fo).inputListDeleted = true) ∧
      ((createVideoSlideshowMethod clips co fo).tempVideoCreated = true →
        (createVideoSlideshowMethod clips co fo).tempVideoDeleted = true)) := by
  constructor
  · cases ext with
    | true => cases o <;> simp [addSubtitlesToVideo] at hcreated
    | false =>
      by_cases hc : createSubtitleCues sd D = []
      · cases o <;> simp [addSubtitlesToVideo, hc] at hcreated
      · cases o with
        | success => simp [addSubtitlesToVideo, hc]
        | failure => simp [addSubtitlesToVideo, hc]
        | raised => simp [addSubtitlesToVideo, hc]
  · intro hco hfo
    unfold createVideoSlideshowMethod
    by_cases hn : (clips.filter id).length = 0
    · rw [if_pos hn]
      exact ⟨rfl, fun h => absurd h Bool.false_ne_true,
        fun h => absurd h Bool.false_ne_true⟩
    · rw [if_neg hn]
      cases co with
      | raised => exact absurd rfl hco
      | failure => exact ⟨rfl, fun _ => rfl, fun h => absurd h Bool.false_ne_true⟩
      | success =>
        cases fo with
        | raised => exact absurd rfl hfo
        | success => exact ⟨rfl, fun _ => rfl, fun _ => rfl⟩
        | failure => exact ⟨rfl, fun _ => rfl, fun _ => rfl⟩

theorem temp_cleanup_paths_witness :
    ((addSubtitlesToVideo (some ⟨"word one two three four five six", []⟩) 12
        false .success).tempSrtCreated = true) ∧
    (((addSubtitlesToVideo (some ⟨"word one two three four five six", []⟩) 12
        false .success).tempSrtDeleted = true ↔
       RunOutcome.success = RunOutcome.success) ∧
     (RunOutcome.success ≠ RunOutcome.raised →
      RunOutcome.success ≠ RunOutcome.raised →
       (createVideoSlideshowMethod [true] .success .success).clipFilesDeleted =
         (createVideoSlideshowMethod [true] .success .success).clipFilesCreated ∧
       ((createVideoSlideshowMethod [true] .success
           .success).inputListCreated = true →
         (createVideoSlideshowMethod [true] .success
           .success).inputListDeleted = true) ∧
       ((createVideoSlideshowMethod [true] .success
           .success).tempVideoCreated = true →
         (createVideoSlideshowMethod [true] .success
           .success).tempVideoDeleted = true))) :=
  ⟨by rw [addSubtitles_success_concrete],
   temp_cleanup_paths (some ⟨"word one two three four five six", []⟩) 12
     false .success [true] .success .success
     (by rw [addSubtitles_success_concrete])⟩

/-- C6: the encoder profile selector is a total function (it cannot raise):
for every platform and probe outcome it resolves to a profile; a raised
probe resolves to the software fallback; every hardware profile carries the
fixed `3M` target bitrate and no CRF; the software fallback is `libx264`
with CRF 26 and no bitrate. -/
theorem encoder_selector_never_fails (host : HostPlatform) (p : EncoderProbe) :
    ((selectEncoderProfile (detectHardwareEncoder host p)).hardware = true →
      (selectEncoderProfile (detectHardwareEncoder host p)).bitrate = some "3M" ∧
      (selectEncoderProfile (detectHardwareEncoder host p)).crf = none) ∧
    ((selectEncoderProfile (detectHardwareEncoder host p)).hardware = false →
      selectEncoderProfile (detectHardwareEncoder host p) = softwareProfile) ∧
    (p.raised = true →
      selectEncoderProfile (detectHardwareEncoder host p) = softwareProfile) := by
  have hraised : p.raised = true → detectHardwareEncoder host p = none := by
    intro hr
    unfold detectHardwareEncoder
    rw [if_pos hr]
  cases hdet : detectHardwareEncoder host p with
  | none =>
    refine ⟨?_, fun _ => rfl, fun _ => rfl⟩
    intro hh
    simp [selectEncoderProfile, softwareProfile] at hh
  | some enc =>
    have hsel : (selectEncoderProfile (some enc)).hardware = true ∧
        (selectEncoderProfile (some enc)).bitrate = some "3M" ∧
        (selectEncoderProfile (some enc)).crf = none := by
      simp only [selectEncoderProfile]
      split_ifs <;> exact ⟨rfl, rfl, rfl⟩
    refine ⟨fun _ => ⟨hsel.2.1, hsel.2.2⟩, fun hf => ?_, fun hr => ?_⟩
    · rw [hsel.1] at hf
      exact absurd hf (by simp)
    · rw [hraised hr] at hdet
      exact absurd hdet (by simp)

theorem encoder_selector_never_fails_witness :
    (((selectEncoderProfile (detectHardwareEncoder .linux ⟨true, ""⟩)).hardware
        = true →
      (selectEncoderProfile (detectHardwareEncoder .linux ⟨true, ""⟩)).bitrate
        = some "3M" ∧
      (selectEncoderProfile (detectHardwareEncoder .linux ⟨true, ""⟩)).crf
        = none) ∧
    ((selectEncoderProfile (detectHardwareEncoder .linux ⟨true, ""⟩)).hardware
        = false →
      selectEncoderProfile (detectHardwareEncoder .linux ⟨true, ""⟩)
        = softwareProfile) ∧
    ((⟨true, ""⟩ : EncoderProbe).raised = true →
      selectEncoderProfile (detectHardwareEncoder .linux ⟨true, ""⟩)
        = softwareProfile)) :=
  encoder_selector_never_fails .linux ⟨true, ""⟩

/-- C7 counterexample: the narration "word one two three four five six" has
seven words, so the caption synchronizer produces three cues (3, 3 and 1
words), not the two cues of three words the spec describes. -/
theorem scenario_cue_count_counterexample :
    (createSubtitleCues (some ⟨"word one two three four five six", []⟩)
      12).length = 3 ∧
    (createSubtitleCues (some ⟨"word one two three four five six", []⟩)
      12).length ≠ 2 := by
  rw [cues_concrete]
  exact ⟨rfl, by decide⟩

/-- C7 amended: for 3 images, 12 s audio, cap 4 s and narration
"word one two three four five six": the allocator yields 3 slots of 4 s
each; the caption synchronizer yields 3 cues ("word one two",
"three four five", "six") spanning 0.2–4.2 s, 4.2–8.2 s and 8.2–12 s (the
0.2 s lead-in applied, the final end clamped to 12 s); the composition
executor is invoked exactly once with 3 image inputs plus 1 audio input; and
the job returns plain success with the captioned artifact. -/
theorem scenario_end_to_end :
    (allocate (["a.jpg", "b.jpg", "c.jpg"] : List String) 12).slots.length = 3 ∧
    (allocate (["a.jpg", "b.jpg", "c.jpg"] : List String) 12).durationPerImage
      = 4 ∧
    createSubtitleCues (some ⟨"word one two three four five six", []⟩) 12 =
      [⟨1, 1/5, 21/5, "word one two"⟩,
       ⟨2, 21/5, 41/5, "three four five"⟩,
       ⟨3, 41/5, 12, "six"⟩] ∧
    createVideoWithFFmpeg ["a.jpg", "b.jpg", "c.jpg"]
        (fun _ => ProbeResult.ok "jpeg image data") 12
        (some ⟨"word one two three four five six", []⟩) false .success
        .success =
      ⟨true, 1, 3, 1, 1, some .captioned, true, true⟩ := by
  have hfit : ¬ (12:ℚ) /
      ((["a.jpg", "b.jpg", "c.jpg"] : List String).length) >
      maxDurationPerImage := by
    norm_num [maxDurationPerImage]
  have halloc : allocate (["a.jpg", "b.jpg", "c.jpg"] : List String) 12 =
      ⟨["a.jpg", "b.jpg", "c.jpg"], 4⟩ := by
    rw [allocate_of_fit _ _ hfit]
    congr 1
    norm_num [maxDurationPerImage, min_self]
  have hvalid : validateImages ["a.jpg", "b.jpg", "c.jpg"]
      (fun _ => ProbeResult.ok "jpeg image data") =
      ["a.jpg", "b.jpg", "c.jpg"] := by decide
  refine ⟨by rw [halloc]; rfl, by rw [halloc], cues_concrete, ?_⟩
  unfold createVideoWithFFmpeg
  rw [if_neg (by decide : ¬ ((["a.jpg", "b.jpg", "c.jpg"] : List String) = [])),
    hvalid,
    if_neg (by decide : ¬ ((["a.jpg", "b.jpg", "c.jpg"] : List String) = [])),
    if_pos rfl, if_neg Bool.false_ne_true,
    if_pos (by decide :
      scriptRequested (some ⟨"word one two three four five six", []⟩) = true),
    halloc, addSubtitles_success_concrete]
  rfl

/-- C8: the clip plan selects the motion profile of clip `i` cyclically as
`i mod 7` from the fixed 7-entry palette, parameterizes every clip with the
frame count `int(duration * 30)` so the zoompan spans the clip, and
consecutive clips always receive different motion profiles (which the
7-entry palette allows). -/
theorem clip_plan_motion_cycle (n : ℕ) (dpi : ℚ) :
    motionTypes.length = 7 ∧
    (buildClipPlan n dpi).length = n ∧
    (∀ i, i < n → (buildClipPlan n dpi)[i]? =
      some ⟨i, motionTypes.getD (i % 7) "", frameCount dpi⟩) ∧
    ∀ i, i + 1 < n →
      ((buildClipPlan n dpi)[i]?).map ClipSpec.motion ≠
      ((buildClipPlan n dpi)[i + 1]?).map ClipSpec.motion := by
  have hget : ∀ i, i < n → (buildClipPlan n dpi)[i]? =
      some ⟨i, motionTypes.getD (i % 7) "", frameCount dpi⟩ := by
    intro i hi
    rw [buildClipPlan, List.getElem?_map, List.getElem?_range hi]
    rfl
  refine ⟨rfl, by simp [buildClipPlan], hget, ?_⟩
  intro i hi
  rw [hget i (by omega), hget (i + 1) hi]
  have hkey : ∀ r, r < 7 →
      motionTypes.getD r "" ≠ motionTypes.getD ((r + 1) % 7) "" := by decide
  have hmod : (i + 1) % 7 = (i % 7 + 1) % 7 := by
    conv_lhs => rw [Nat.add_mod]
  simp only [Option.map_some']
  rw [hmod]
  intro hcon
  exact hkey (i % 7) (Nat.mod_lt i (by norm_num)) (Option.some.inj hcon)

theorem caption_cues_invariant_witness :
    (List.Pairwise (fun a b : CaptionCue => a.stop ≤ b.start)
      (createSubtitleCues (some ⟨"word one two three four five six", []⟩) 12) ∧
    ∀ c ∈ createSubtitleCues (some ⟨"word one two three four five six", []⟩) 12,
      c.start ≤ c.stop ∧ c.stop ≤ 12 ∧ c.start < 12) :=
  caption_cues_invariant (some ⟨"word one two three four five six", []⟩) 12

theorem clip_plan_motion_cycle_witness :
    (motionTypes.length = 7 ∧
     (buildClipPlan 3 4).length = 3 ∧
     (∀ i, i < 3 → (buildClipPlan 3 4)[i]? =
       some ⟨i, motionTypes.getD (i % 7) "", frameCount 4⟩) ∧
     ∀ i, i + 1 < 3 →
       ((buildClipPlan 3 4)[i]?).map ClipSpec.motion ≠
       ((buildClipPlan 3 4)[i + 1]?).map ClipSpec.motion) :=
  clip_plan_motion_cycle 3 4

end SimpleVideo
